import Mathlib

/-!
Verification of the bitchat-pwa packet codec and session logic
(src/bitchat-pwa/index.js) against its natural-language specification.

Modelling conventions (shallow embedding):
* Byte buffers (ArrayBuffer / Uint8Array / DataView) are `List Nat`; real
  buffers hold values < 256 and the DataView setters reduce modulo 256 where
  the JS semantics does.
* JS strings are represented by their UTF-8 byte sequences (TextEncoder /
  TextDecoder are mutually inverse on the byte lists that arise here), so
  senderName / content / uid fields are `List Nat` byte lists.
* `crypto.getRandomValues`, `crypto.randomUUID` and `Date.now()` are ambient
  effects; they become explicit parameters (random bytes, uid bytes,
  timestamp), matching the RandomSource / Clock collaborators of the spec.
* Timestamps are exact naturals; the decoder converts through a JS Number,
  exact below 2 ^ 53, so theorems assume timestamp < 2 ^ 53.
* Fallible DataView reads live in `Except Unit`; the try/catch wrapper of
  parseReceivedPacket converts any thrown error into null (`none`).
-/

/-- Big-endian byte string of width w for the value n (the byte image used by
DataView.setUint16 / setBigUint64, which store the value modulo 2 ^ (8 w)). -/
def toBytesBE : Nat → Nat → List Nat
  | 0, _ => []
  | w + 1, n => n / 256 ^ w % 256 :: toBytesBE w n

/-- Single byte written by DataView.setUint8 (JS coerces modulo 256). -/
def u8 (v : Nat) : List Nat := [v % 256]

/-- Big-endian value of a byte string (the value read back by
DataView.getUint16 / getBigUint64). -/
def beVal (bs : List Nat) : Nat := bs.foldl (fun a b => a * 256 + b) 0

/-- In-place write of src into buf at offset off, as Uint8Array.set /
DataView setters do on an already-allocated buffer. -/
def writeBytes (buf : List Nat) (off : Nat) (src : List Nat) : List Nat :=
  buf.take off ++ src ++ buf.drop (off + src.length)

/-- Sequential writes into a buffer: the encoder bodies are straight-line
sequences of DataView / Uint8Array writes, rendered as an offset-payload
list applied in order. -/
def applyWrites (buf : List Nat) (ws : List (Nat × List Nat)) : List Nat :=
  ws.foldl (fun b p => writeBytes b p.1 p.2) buf

/-- Bounds-checked big-endian read of w bytes at offset off: DataView.getUint8
(w = 1), getUint16 (w = 2), getBigUint64 (w = 8) throw a RangeError when the
read would pass the end of the buffer. -/
def getBytesBE (bs : List Nat) (off w : Nat) : Except Unit Nat :=
  if off + w ≤ bs.length then Except.ok (beVal ((bs.drop off).take w))
  else Except.error ()

/-- Uint8Array.slice(a, b): clamps to the available bytes, never throws. -/
def sliceClamp (bs : List Nat) (a b : Nat) : List Nat :=
  (bs.drop a).take (b - a)

/-- Lower-case hexadecimal digit, as Number.prototype.toString(16) produces. -/
def hexDigit (n : Nat) : Char :=
  if n < 10 then Char.ofNat (48 + n) else Char.ofNat (87 + n)

/-- Hex rendering of a byte list:
Array.from(bytes).map(b =&gt; b.toString(16).padStart(2, "0")).join(""). -/
def hexOfBytes (bs : List Nat) : String :=
  String.mk ((bs.map (fun b => [hexDigit (b / 16 % 16), hexDigit (b % 16)])).flatten)

/-- Records returned by parseReceivedPacket: the announce object has fields
type, senderName, senderId (hex string), timestamp; the message object has
additionally content and uid. The ttl byte is read but not returned. -/
inductive ParsedPacket where
  | announce (senderName : List Nat) (senderId : String) (timestamp : Nat)
  | message (senderName : List Nat) (content : List Nat) (senderId : String)
      (timestamp : Nat) (uid : List Nat)
  deriving DecidableEq

/-- Body of parseReceivedPacket (index.js lines 394-492), the code inside the
try block: sequential DataView reads (which can throw, modelled by
Except.error) and clamping slices; `Except.ok none` is the explicit
`return null` on an unrecognized (version, type) pair. -/
def parseBody (bs : List Nat) : Except Unit (Option ParsedPacket) := do
  let packetType1 ← getBytesBE bs 0 1
  let packetType2 ← getBytesBE bs 1 1
  if packetType1 = 1 ∧ packetType2 = 1 then
    let _ttl ← getBytesBE bs 2 1
    let timestamp ← getBytesBE bs 3 8
    -- offset++ skips the flags byte at 11 without reading it
    let nameLength ← getBytesBE bs 12 2
    let senderId := sliceClamp bs 14 22
    let senderName := sliceClamp bs 22 (22 + nameLength)
    pure (some (ParsedPacket.announce senderName (hexOfBytes senderId) timestamp))
  else if packetType1 = 1 ∧ packetType2 = 4 then
    let _ttl ← getBytesBE bs 2 1
    let _timestamp ← getBytesBE bs 3 8
    let _messageLength ← getBytesBE bs 12 2
    let senderId := sliceClamp bs 14 22
    -- offset += 8 skips the 8-byte recipient id
    let _msgFlags ← getBytesBE bs 30 1
    let msgTimestamp ← getBytesBE bs 31 8
    let uidLength ← getBytesBE bs 39 1
    let uid := sliceClamp bs 40 (40 + uidLength)
    let nameLength ← getBytesBE bs (40 + uidLength) 1
    let senderName := sliceClamp bs (41 + uidLength) (41 + uidLength + nameLength)
    let contentLength ← getBytesBE bs (41 + uidLength + nameLength) 2
    let content := sliceClamp bs (43 + uidLength + nameLength)
      (43 + uidLength + nameLength + contentLength)
    let senderIdLength ← getBytesBE bs (43 + uidLength + nameLength + contentLength) 1
    let _messageSenderId := sliceClamp bs (44 + uidLength + nameLength + contentLength)
      (44 + uidLength + nameLength + contentLength + senderIdLength)
    pure (some (ParsedPacket.message senderName content (hexOfBytes senderId)
      msgTimestamp uid))
  else
    pure none

/-- parseReceivedPacket: the try/catch wrapper returns null on any thrown
error, otherwise the body's result. -/
def parseReceivedPacket (bs : List Nat) : Option ParsedPacket :=
  match parseBody bs with
  | Except.ok r => r
  | Except.error _ => none

/-- generateSenderId (index.js lines 33-37): an 8-byte Uint8Array filled from
crypto.getRandomValues; the RandomSource draw is the explicit argument. -/
def generateSenderId (randomBytes : List Nat) : List Nat := randomBytes

/-- generateAnnouncePacket (index.js lines 39-69): allocates
15 + 8 + nameBytes.length zero bytes and writes version, type, ttl,
timestamp, flags, name length (setUint16, big-endian), senderId, name. -/
def generateAnnouncePacket (timestamp : Nat) (senderId senderName : List Nat)
    (ttl : Nat := 3) : List Nat :=
  applyWrites (List.replicate (15 + 8 + senderName.length) 0)
    [ (0, u8 1), (1, u8 1), (2, u8 ttl), (3, toBytesBE 8 timestamp), (11, u8 0),
      (12, toBytesBE 2 senderName.length), (14, senderId),
      (14 + senderId.length, senderName) ]

/-- generateMessagePacket (index.js lines 71-151): builds the inner message
record (flags 0x10, timestamp, uid / name / content / senderId with length
prefixes), then the outer envelope (version, type 0x04, ttl, timestamp,
flags 0x01, payload length, senderId, broadcast recipient 8 x 0xFF, inner
record). The fresh uid from crypto.randomUUID is the explicit uid argument. -/
def generateMessagePacket (timestamp : Nat) (uid : List Nat)
    (senderId senderName content : List Nat) (ttl : Nat := 3) : List Nat :=
  let messageLength := 1 + 8 + 1 + uid.length + 1 + senderName.length + 2 +
    content.length + 1 + senderId.length
  let message := applyWrites (List.replicate messageLength 0)
    [ (0, u8 16), (1, toBytesBE 8 timestamp), (9, u8 uid.length), (10, uid),
      (10 + uid.length, u8 senderName.length), (11 + uid.length, senderName),
      (11 + uid.length + senderName.length, toBytesBE 2 content.length),
      (13 + uid.length + senderName.length, content),
      (13 + uid.length + senderName.length + content.length, u8 senderId.length),
      (14 + uid.length + senderName.length + content.length, senderId) ]
  applyWrites (List.replicate (15 + 8 + 8 + messageLength) 0)
    [ (0, u8 1), (1, u8 4), (2, u8 ttl), (3, toBytesBE 8 timestamp), (11, u8 1),
      (12, toBytesBE 2 messageLength), (14, senderId),
      (14 + senderId.length, List.replicate 8 255),
      (22 + senderId.length, message) ]

/-- sendMessages (index.js lines 213-257), the packets written to the
characteristic in one invocation: a fresh senderId is drawn by
generateSenderId at the start of the call, then one announce packet (ttl
defaulted) and numMessages message packets with explicit ttl 5 are written.
rand is this call's RandomSource draw, uids the stream of fresh uuids. -/
def sendMessages (rand : List Nat) (timestamp : Nat) (uids : Nat → List Nat)
    (senderName message : List Nat) (numMessages : Nat) : List (List Nat) :=
  let senderId := generateSenderId rand
  generateAnnouncePacket timestamp senderId senderName ::
    (List.range numMessages).map
      (fun i => generateMessagePacket timestamp (uids i) senderId senderName message 5)

/-- Two consecutive sendMessages invocations in one session: each call draws
its own senderId from the session RandomSource (call k uses draw rng k). -/
def twoConsecutiveSends (rng : Nat → List Nat) (timestamp : Nat)
    (uids : Nat → List Nat) (senderName message : List Nat) (numMessages : Nat) :
    List (List Nat) × List (List Nat) :=
  (sendMessages (rng 0) timestamp uids senderName message numMessages,
   sendMessages (rng 1) timestamp uids senderName message numMessages)

/-- Ambient inputs of one broadcastToAll run (index.js lines 273-389): the
run-wide senderId (drawn once at line 294), timestamp, uid stream, the two
text fields and the repeat count. -/
structure BroadcastCtx where
  senderId : List Nat
  timestamp : Nat
  uids : Nat → List Nat
  senderName : List Nat
  message : List Nat
  numMessages : Nat

/-- Packets written to one successfully connected device inside the broadcast
loop: one announce (ttl defaulted) then numMessages messages with ttl 5. -/
def devicePackets (c : BroadcastCtx) : List (List Nat) :=
  generateAnnouncePacket c.timestamp c.senderId c.senderName ::
    (List.range c.numMessages).map
      (fun i => generateMessagePacket c.timestamp (c.uids i) c.senderId
        c.senderName c.message 5)

/-- Observable outcome of a broadcastToAll run: the devicesFound and
messagesSent counters, the number of per-device failure log entries (the
log(..., "error") calls in the inner catch), and the writes performed,
grouped per device id. -/
structure BroadcastResult where
  devicesFound : Nat
  messagesSent : Nat
  failureLogs : Nat
  writes : List (Nat × List (List Nat))
  deriving DecidableEq

/-- One step per requestDevice result: a pair (device id, whether connect and
send succeed). The loop ends when the user cancels the picker, i.e. at the
end of the script. Devices already in discoveredDevices are skipped; a
successful device is appended to discoveredDevices; a failed one is only
logged. -/
def broadcastGo (c : BroadcastCtx) (discovered : List Nat)
    (acc : BroadcastResult) : List (Nat × Bool) → BroadcastResult
  | [] => acc
  | (id, ok) :: rest =>
    if id ∈ discovered then broadcastGo c discovered acc rest
    else if ok then
      broadcastGo c (id :: discovered)
        { devicesFound := acc.devicesFound + 1
          messagesSent := acc.messagesSent + c.numMessages
          failureLogs := acc.failureLogs
          writes := acc.writes ++ [(id, devicePackets c)] } rest
    else
      broadcastGo c discovered
        { devicesFound := acc.devicesFound
          messagesSent := acc.messagesSent
          failureLogs := acc.failureLogs + 1
          writes := acc.writes } rest

/-- broadcastToAll (index.js lines 273-389) over a discovery script:
discoveredDevices starts empty and the counters start at zero. -/
def broadcastToAll (c : BroadcastCtx) (script : List (Nat × Bool)) :
    BroadcastResult :=
  broadcastGo c [] ⟨0, 0, 0, []⟩ script

/-- Device ids in discoveredDevices after processing a script prefix (only
successfully serviced devices are pushed). -/
def servicedIds (discovered : List Nat) : List (Nat × Bool) → List Nat
  | [] => discovered
  | (id, ok) :: rest =>
    if id ∈ discovered then servicedIds discovered rest
    else if ok then servicedIds (id :: discovered) rest
    else servicedIds discovered rest

/-- Offsets of consecutive writes: each write starts where the previous one
ended. -/
def consecFrom : Nat → List (Nat × List Nat) → Prop
  | _, [] => True
  | o, (off, src) :: rest => off = o ∧ consecFrom (o + src.length) rest

/-- Concatenation of the payloads of a write list. -/
def concatWrites (ws : List (Nat × List Nat)) : List Nat :=
  (ws.map Prod.snd).flatten

/-- Concrete 8-byte sender id used in witnesses and counterexamples. -/
def sid0 : List Nat := [1, 2, 3, 4, 5, 6, 7, 8]

/-- Concrete 36-byte uid standing for one crypto.randomUUID draw. -/
def uid36 : List Nat := List.replicate 36 97

/-- Constant uid stream. -/
def uidsA : Nat → List Nat := fun _ => uid36

/-- RandomSource whose first two draws differ. -/
def rngA : Nat → List Nat :=
  fun k => if k = 0 then List.replicate 8 1 else List.replicate 8 2

/-- Concrete announce packet for the name Alice (28 bytes). -/
def annA : List Nat := generateAnnouncePacket 0 sid0 [65, 108, 105, 99, 101] 3

/-- Concrete announce packet for the one-byte name A (24 bytes). -/
def annB : List Nat := generateAnnouncePacket 0 sid0 [65] 3

/-- Concrete message packet, name Bob, content hi (94 bytes). -/
def msgM : List Nat := generateMessagePacket 0 uid36 sid0 [66, 111, 98] [104, 105] 5

/-- Broadcast context for the three-peer scenario. -/
def ctx0 : BroadcastCtx := ⟨sid0, 0, uidsA, [66, 111, 98], [104, 105], 1⟩

/-! Helper lemmas. -/

@[simp] lemma toBytesBE_length (w n : Nat) : (toBytesBE w n).length = w := by
  induction w generalizing n with
  | zero => rfl
  | succ w ih => simp [toBytesBE, ih]

lemma foldl_toBytesBE (w n acc : Nat) :
    (toBytesBE w n).foldl (fun a b => a * 256 + b) acc = acc * 256 ^ w + n % 256 ^ w := by
  induction w generalizing acc with
  | zero => simp [toBytesBE, Nat.mod_one]
  | succ w ih =>
    simp only [toBytesBE, List.foldl_cons, ih]
    rw [pow_succ, Nat.mod_mul]
    ring

@[simp] lemma beVal_toBytesBE (w n : Nat) : beVal (toBytesBE w n) = n % 256 ^ w := by
  simp [beVal, foldl_toBytesBE]

@[simp] lemma beVal_singleton (a : Nat) : beVal [a] = a := by simp [beVal]

lemma concatWrites_cons (o : Nat) (s : List Nat) (r : List (Nat × List Nat)) :
    concatWrites ((o, s) :: r) = s ++ concatWrites r := by
  simp [concatWrites]

@[simp] lemma concatWrites_nil : concatWrites [] = [] := rfl

lemma writeBytes_block (w : List Nat) (k : Nat) (src : List Nat) (off : Nat)
    (hoff : off = w.length) (hk : src.length ≤ k) :
    writeBytes (w ++ List.replicate k 0) off src =
      (w ++ src) ++ List.replicate (k - src.length) 0 := by
  subst hoff
  rw [writeBytes]
  have h1 : (w ++ List.replicate k 0).take w.length = w := List.take_left w _
  have h2 : (w ++ List.replicate k 0).drop (w.length + src.length) =
      List.replicate (k - src.length) 0 := by
    rw [← List.drop_drop, List.drop_left, List.drop_replicate]
  rw [h1, h2, List.append_assoc]

lemma applyWrites_block (ws : List (Nat × List Nat)) (w : List Nat) (k : Nat)
    (hc : consecFrom w.length ws) (hk : (concatWrites ws).length ≤ k) :
    applyWrites (w ++ List.replicate k 0) ws =
      (w ++ concatWrites ws) ++ List.replicate (k - (concatWrites ws).length) 0 := by
  induction ws generalizing w k with
  | nil => simp [applyWrites]
  | cons p rest ih =>
    obtain ⟨off, src⟩ := p
    obtain ⟨hoff, hrest⟩ := hc
    rw [concatWrites_cons] at hk ⊢
    simp only [List.length_append] at hk
    have hsrc : src.length ≤ k := by omega
    have hw : writeBytes (w ++ List.replicate k 0) off src =
        (w ++ src) ++ List.replicate (k - src.length) 0 :=
      writeBytes_block w k src off hoff hsrc
    have hc2 : consecFrom (w ++ src).length rest := by
      rw [List.length_append]; exact hrest
    have hk2 : (concatWrites rest).length ≤ k - src.length := by omega
    calc applyWrites (w ++ List.replicate k 0) ((off, src) :: rest)
        = applyWrites ((w ++ src) ++ List.replicate (k - src.length) 0) rest := by
          simp only [applyWrites, List.foldl_cons, hw]
      _ = ((w ++ src) ++ concatWrites rest) ++
            List.replicate ((k - src.length) - (concatWrites rest).length) 0 :=
          ih (w ++ src) (k - src.length) hc2 hk2
      _ = (w ++ (src ++ concatWrites rest)) ++
            List.replicate (k - (src ++ concatWrites rest).length) 0 := by
          rw [List.append_assoc w src]
          congr 2
          simp only [List.length_append]
          omega

lemma seg_extract (bs pre mid post : List Nat) (off w : Nat)
    (hbs : bs = pre ++ (mid ++ post)) (h1 : pre.length = off) (h2 : mid.length = w) :
    (bs.drop off).take w = mid := by
  subst hbs
  rw [List.drop_left' h1, List.take_append_eq_append_take, List.take_of_length_le (by omega),
    h2, Nat.sub_self, List.take_zero, List.append_nil]

lemma getBytesBE_seg (bs pre mid post : List Nat) (off w : Nat)
    (hbs : bs = pre ++ (mid ++ post)) (h1 : pre.length = off) (h2 : mid.length = w) :
    getBytesBE bs off w = Except.ok (beVal mid) := by
  have hlen : off + w ≤ bs.length := by
    subst hbs; simp only [List.length_append]; omega
  rw [getBytesBE, if_pos hlen, seg_extract bs pre mid post off w hbs h1 h2]

lemma sliceClamp_seg (bs pre mid post : List Nat) (a b : Nat)
    (hbs : bs = pre ++ (mid ++ post)) (h1 : pre.length = a) (h2 : mid.length = b - a) :
    sliceClamp bs a b = mid :=
  seg_extract bs pre mid post a (b - a) hbs h1 h2

lemma getBytesBE_none (bs : List Nat) (off w : Nat) (h : bs.length < off + w) :
    getBytesBE bs off w = Except.error () := by
  rw [getBytesBE, if_neg (by omega)]

lemma getBytesBE_ok_le (bs : List Nat) (off w v : Nat)
    (h : getBytesBE bs off w = Except.ok v) : off + w ≤ bs.length := by
  by_contra hc
  rw [getBytesBE, if_neg hc] at h
  exact Except.noConfusion h

lemma applyWrites_zero (ws : List (Nat × List Nat)) (k : Nat)
    (hc : consecFrom 0 ws) (hk : (concatWrites ws).length ≤ k) :
    applyWrites (List.replicate k 0) ws =
      concatWrites ws ++ List.replicate (k - (concatWrites ws).length) 0 := by
  have h := applyWrites_block ws [] k hc hk
  simpa using h

/-- Byte-level form of the announce packet: version, type, ttl, timestamp,
flags, 2-byte name length, senderId, name, and one inert trailing zero byte
left over from the 15 + 8 + nameBytes.length allocation. -/
lemma generateAnnouncePacket_eq (ts : Nat) (sid name : List Nat) (ttl : Nat)
    (hsid : sid.length = 8) :
    generateAnnouncePacket ts sid name ttl =
      ([1] ++ [1] ++ [ttl % 256] ++ toBytesBE 8 ts ++ [0] ++
        toBytesBE 2 name.length ++ sid ++ name) ++ [0] := by
  simp only [generateAnnouncePacket]
  rw [hsid]
  have hc : consecFrom 0
      [ (0, u8 1), (1, u8 1), (2, u8 ttl), (3, toBytesBE 8 ts), (11, u8 0),
        (12, toBytesBE 2 name.length), (14, sid), (14 + 8, name) ] := by
    simp [consecFrom, u8, hsid]
  have hk : (concatWrites
      [ (0, u8 1), (1, u8 1), (2, u8 ttl), (3, toBytesBE 8 ts), (11, u8 0),
        (12, toBytesBE 2 name.length), (14, sid), (14 + 8, name) ]).length ≤
      15 + 8 + name.length := by
    simp [concatWrites, u8, hsid]
    omega
  rw [applyWrites_zero _ _ hc hk]
  have hlen : (concatWrites
      [ (0, u8 1), (1, u8 1), (2, u8 ttl), (3, toBytesBE 8 ts), (11, u8 0),
        (12, toBytesBE 2 name.length), (14, sid), (14 + 8, name) ]).length =
      22 + name.length := by
    simp [concatWrites, u8, hsid]
    omega
  rw [hlen]
  have hcount : 15 + 8 + name.length - (22 + name.length) = 1 := by omega
  rw [hcount]
  simp [concatWrites, u8, List.append_assoc]

/-- Byte-level form of the message packet: outer envelope (version, type,
ttl, timestamp, flags, payload length, senderId, broadcast recipient), inner
message record, and one inert trailing zero byte from the over-allocation. -/
lemma generateMessagePacket_eq (ts : Nat) (uid sid name content : List Nat)
    (ttl : Nat) (hsid : sid.length = 8) :
    generateMessagePacket ts uid sid name content ttl =
      ([1] ++ [4] ++ [ttl % 256] ++ toBytesBE 8 ts ++ [1] ++
        toBytesBE 2 (22 + uid.length + name.length + content.length) ++ sid ++
        List.replicate 8 255 ++
        ([16] ++ toBytesBE 8 ts ++ [uid.length % 256] ++ uid ++
          [name.length % 256] ++ name ++ toBytesBE 2 content.length ++ content ++
          [8] ++ sid)) ++ [0] := by
  simp only [generateMessagePacket]
  rw [hsid]
  have hm : 1 + 8 + 1 + uid.length + 1 + name.length + 2 + content.length + 1 + 8 =
      22 + uid.length + name.length + content.length := by omega
  rw [hm]
  have hcI : consecFrom 0
      [ (0, u8 16), (1, toBytesBE 8 ts), (9, u8 uid.length), (10, uid),
        (10 + uid.length, u8 name.length), (11 + uid.length, name),
        (11 + uid.length + name.length, toBytesBE 2 content.length),
        (13 + uid.length + name.length, content),
        (13 + uid.length + name.length + content.length, u8 8),
        (14 + uid.length + name.length + content.length, sid) ] := by
    simp [consecFrom, u8]
    omega
  have hkI : (concatWrites
      [ (0, u8 16), (1, toBytesBE 8 ts), (9, u8 uid.length), (10, uid),
        (10 + uid.length, u8 name.length), (11 + uid.length, name),
        (11 + uid.length + name.length, toBytesBE 2 content.length),
        (13 + uid.length + name.length, content),
        (13 + uid.length + name.length + content.length, u8 8),
        (14 + uid.length + name.length + content.length, sid) ]).length ≤
      22 + uid.length + name.length + content.length := by
    simp [concatWrites, u8, hsid]
    omega
  have hIn : applyWrites
      (List.replicate (22 + uid.length + name.length + content.length) 0)
      [ (0, u8 16), (1, toBytesBE 8 ts), (9, u8 uid.length), (10, uid),
        (10 + uid.length, u8 name.length), (11 + uid.length, name),
        (11 + uid.length + name.length, toBytesBE 2 content.length),
        (13 + uid.length + name.length, content),
        (13 + uid.length + name.length + content.length, u8 8),
        (14 + uid.length + name.length + content.length, sid) ] =
      [16] ++ toBytesBE 8 ts ++ [uid.length % 256] ++ uid ++
        [name.length % 256] ++ name ++ toBytesBE 2 content.length ++ content ++
        [8] ++ sid := by
    rw [applyWrites_zero _ _ hcI hkI]
    have hlenI : (concatWrites
        [ (0, u8 16), (1, toBytesBE 8 ts), (9, u8 uid.length), (10, uid),
          (10 + uid.length, u8 name.length), (11 + uid.length, name),
          (11 + uid.length + name.length, toBytesBE 2 content.length),
          (13 + uid.length + name.length, content),
          (13 + uid.length + name.length + content.length, u8 8),
          (14 + uid.length + name.length + content.length, sid) ]).length =
        22 + uid.length + name.length + content.length := by
      simp [concatWrites, u8, hsid]
      omega
    rw [hlenI, Nat.sub_self, List.replicate_zero, List.append_nil]
    simp [concatWrites, u8, List.append_assoc]
  rw [hIn]
  have hcO : consecFrom 0
      [ (0, u8 1), (1, u8 4), (2, u8 ttl), (3, toBytesBE 8 ts), (11, u8 1),
        (12, toBytesBE 2 (22 + uid.length + name.length + content.length)),
        (14, sid), (14 + 8, List.replicate 8 255),
        (22 + 8,
          [16] ++ toBytesBE 8 ts ++ [uid.length % 256] ++ uid ++
            [name.length % 256] ++ name ++ toBytesBE 2 content.length ++ content ++
            [8] ++ sid) ] := by
    simp [consecFrom, u8, hsid]
  have hkO : (concatWrites
      [ (0, u8 1), (1, u8 4), (2, u8 ttl), (3, toBytesBE 8 ts), (11, u8 1),
        (12, toBytesBE 2 (22 + uid.length + name.length + content.length)),
        (14, sid), (14 + 8, List.replicate 8 255),
        (22 + 8,
          [16] ++ toBytesBE 8 ts ++ [uid.length % 256] ++ uid ++
            [name.length % 256] ++ name ++ toBytesBE 2 content.length ++ content ++
            [8] ++ sid) ]).length ≤
      15 + 8 + 8 + (22 + uid.length + name.length + content.length) := by
    simp [concatWrites, u8, hsid]
    omega
  rw [applyWrites_zero _ _ hcO hkO]
  have hlenO : (concatWrites
      [ (0, u8 1), (1, u8 4), (2, u8 ttl), (3, toBytesBE 8 ts), (11, u8 1),
        (12, toBytesBE 2 (22 + uid.length + name.length + content.length)),
        (14, sid), (14 + 8, List.replicate 8 255),
        (22 + 8,
          [16] ++ toBytesBE 8 ts ++ [uid.length % 256] ++ uid ++
            [name.length % 256] ++ name ++ toBytesBE 2 content.length ++ content ++
            [8] ++ sid) ]).length =
      52 + uid.length + name.length + content.length := by
    simp [concatWrites, u8, hsid]
    omega
  rw [hlenO]
  have hcount : 15 + 8 + 8 + (22 + uid.length + name.length + content.length) -
      (52 + uid.length + name.length + content.length) = 1 := by omega
  rw [hcount]
  simp [concatWrites, u8, List.append_assoc]

lemma except_bind_ok {α β : Type} (a : α) (f : α → Except Unit β) :
    (Except.ok a >>= f) = f a := rfl

lemma except_pure_eq {α : Type} (a : α) : (pure a : Except Unit α) = Except.ok a := rfl

/-- Evaluation of the decoder body on any buffer with the announce layout,
followed by an arbitrary tail (the inert padding byte, or nothing). -/
lemma parseBody_announce_shape (bs sid name : List Nat) (tb ts : Nat)
    (tail : List Nat)
    (hbs : bs = [1] ++ [1] ++ [tb] ++ toBytesBE 8 ts ++ [0] ++
      toBytesBE 2 name.length ++ sid ++ name ++ tail)
    (hsid : sid.length = 8) (hname : name.length ≤ 65535) (hts : ts < 2 ^ 53) :
    parseBody bs =
      Except.ok (some (ParsedPacket.announce name (hexOfBytes sid) ts)) := by
  have r0 : getBytesBE bs 0 1 = Except.ok (beVal [1]) :=
    getBytesBE_seg bs [] [1]
      ([1] ++ [tb] ++ toBytesBE 8 ts ++ [0] ++ toBytesBE 2 name.length ++
        sid ++ name ++ tail) 0 1 (by simp [hbs]) rfl rfl
  have r1 : getBytesBE bs 1 1 = Except.ok (beVal [1]) :=
    getBytesBE_seg bs [1] [1]
      ([tb] ++ toBytesBE 8 ts ++ [0] ++ toBytesBE 2 name.length ++
        sid ++ name ++ tail) 1 1 (by simp [hbs]) rfl rfl
  have r2 : getBytesBE bs 2 1 = Except.ok (beVal [tb]) :=
    getBytesBE_seg bs [1, 1] [tb]
      (toBytesBE 8 ts ++ [0] ++ toBytesBE 2 name.length ++ sid ++ name ++ tail)
      2 1 (by simp [hbs]) rfl rfl
  have r3 : getBytesBE bs 3 8 = Except.ok ts := by
    have h := getBytesBE_seg bs [1, 1, tb] (toBytesBE 8 ts)
      ([0] ++ toBytesBE 2 name.length ++ sid ++ name ++ tail)
      3 8 (by simp [hbs]) rfl (by simp)
    rw [h, beVal_toBytesBE,
      Nat.mod_eq_of_lt (lt_of_lt_of_le hts (by norm_num))]
  have r5 : getBytesBE bs 12 2 = Except.ok name.length := by
    have h := getBytesBE_seg bs ([1, 1, tb] ++ toBytesBE 8 ts ++ [0])
      (toBytesBE 2 name.length) (sid ++ name ++ tail)
      12 2 (by simp [hbs]) (by simp) (by simp)
    rw [h, beVal_toBytesBE,
      Nat.mod_eq_of_lt (lt_of_le_of_lt hname (by norm_num))]
  have s1 : sliceClamp bs 14 22 = sid :=
    sliceClamp_seg bs ([1, 1, tb] ++ toBytesBE 8 ts ++ [0] ++
        toBytesBE 2 name.length) sid (name ++ tail)
      14 22 (by simp [hbs]) (by simp) (by omega)
  have s2 : sliceClamp bs 22 (22 + name.length) = name :=
    sliceClamp_seg bs ([1, 1, tb] ++ toBytesBE 8 ts ++ [0] ++
        toBytesBE 2 name.length ++ sid) name tail
      22 (22 + name.length) (by simp [hbs]) (by simp [hsid]) (by omega)
  simp only [parseBody, r0, r1, r2, r3, r5, except_bind_ok, beVal_singleton,
    s1, s2, except_pure_eq]
  norm_num

/-- Evaluation of the decoder body on any buffer with the message layout,
followed by an arbitrary tail. -/
lemma parseBody_message_shape (bs uid sid name content : List Nat) (tb ts : Nat)
    (tail : List Nat)
    (hbs : bs = [1] ++ [4] ++ [tb] ++ toBytesBE 8 ts ++ [1] ++
      toBytesBE 2 (22 + uid.length + name.length + content.length) ++ sid ++
      List.replicate 8 255 ++ [16] ++ toBytesBE 8 ts ++ [uid.length % 256] ++
      uid ++ [name.length % 256] ++ name ++ toBytesBE 2 content.length ++
      content ++ [8] ++ sid ++ tail)
    (hsid : sid.length = 8) (huid : uid.length ≤ 255) (hname : name.length ≤ 255)
    (hcontent : content.length ≤ 65535) (hts : ts < 2 ^ 53) :
    parseBody bs =
      Except.ok (some (ParsedPacket.message name content (hexOfBytes sid) ts uid)) := by
  have r0 : getBytesBE bs 0 1 = Except.ok (beVal [1]) :=
    getBytesBE_seg bs [] [1]
      ([4] ++ [tb] ++ toBytesBE 8 ts ++ [1] ++
        toBytesBE 2 (22 + uid.length + name.length + content.length) ++ sid ++
        List.replicate 8 255 ++ [16] ++ toBytesBE 8 ts ++ [uid.length % 256] ++
        uid ++ [name.length % 256] ++ name ++ toBytesBE 2 content.length ++
        content ++ [8] ++ sid ++ tail) 0 1 (by simp [hbs]) rfl rfl
  have r1 : getBytesBE bs 1 1 = Except.ok (beVal [4]) :=
    getBytesBE_seg bs [1] [4]
      ([tb] ++ toBytesBE 8 ts ++ [1] ++
        toBytesBE 2 (22 + uid.length + name.length + content.length) ++ sid ++
        List.replicate 8 255 ++ [16] ++ toBytesBE 8 ts ++ [uid.length % 256] ++
        uid ++ [name.length % 256] ++ name ++ toBytesBE 2 content.length ++
        content ++ [8] ++ sid ++ tail) 1 1 (by simp [hbs]) rfl rfl
  have r2 : getBytesBE bs 2 1 = Except.ok (beVal [tb]) :=
    getBytesBE_seg bs [1, 4] [tb]
      (toBytesBE 8 ts ++ [1] ++
        toBytesBE 2 (22 + uid.length + name.length + content.length) ++ sid ++
        List.replicate 8 255 ++ [16] ++ toBytesBE 8 ts ++ [uid.length % 256] ++
        uid ++ [name.length % 256] ++ name ++ toBytesBE 2 content.length ++
        content ++ [8] ++ sid ++ tail) 2 1 (by simp [hbs]) rfl rfl
  have r3 : getBytesBE bs 3 8 = Except.ok ts := by
    have h := getBytesBE_seg bs [1, 4, tb] (toBytesBE 8 ts)
      ([1] ++ toBytesBE 2 (22 + uid.length + name.length + content.length) ++ sid ++
        List.replicate 8 255 ++ [16] ++ toBytesBE 8 ts ++ [uid.length % 256] ++
        uid ++ [name.length % 256] ++ name ++ toBytesBE 2 content.length ++
        content ++ [8] ++ sid ++ tail) 3 8 (by simp [hbs]) rfl (by simp)
    rw [h, beVal_toBytesBE,
      Nat.mod_eq_of_lt (lt_of_lt_of_le hts (by norm_num))]
  have r4 : getBytesBE bs 12 2 =
      Except.ok (beVal (toBytesBE 2 (22 + uid.length + name.length + content.length))) :=
    getBytesBE_seg bs ([1, 4, tb] ++ toBytesBE 8 ts ++ [1])
      (toBytesBE 2 (22 + uid.length + name.length + content.length))
      (sid ++ List.replicate 8 255 ++ [16] ++ toBytesBE 8 ts ++
        [uid.length % 256] ++ uid ++ [name.length % 256] ++ name ++
        toBytesBE 2 content.length ++ content ++ [8] ++ sid ++ tail)
      12 2 (by simp [hbs]) (by simp) (by simp)
  have s1 : sliceClamp bs 14 22 = sid :=
    sliceClamp_seg bs ([1, 4, tb] ++ toBytesBE 8 ts ++ [1] ++
        toBytesBE 2 (22 + uid.length + name.length + content.length)) sid
      (List.replicate 8 255 ++ [16] ++ toBytesBE 8 ts ++ [uid.length % 256] ++
        uid ++ [name.length % 256] ++ name ++ toBytesBE 2 content.length ++
        content ++ [8] ++ sid ++ tail)
      14 22 (by simp [hbs]) (by simp) (by omega)
  have r6 : getBytesBE bs 30 1 = Except.ok (beVal [16]) :=
    getBytesBE_seg bs ([1, 4, tb] ++ toBytesBE 8 ts ++ [1] ++
        toBytesBE 2 (22 + uid.length + name.length + content.length) ++ sid ++
        List.replicate 8 255) [16]
      (toBytesBE 8 ts ++ [uid.length % 256] ++ uid ++ [name.length % 256] ++
        name ++ toBytesBE 2 content.length ++ content ++ [8] ++ sid ++ tail)
      30 1 (by simp [hbs]) (by simp [hsid]) rfl
  have r7 : getBytesBE bs 31 8 = Except.ok ts := by
    have h := getBytesBE_seg bs ([1, 4, tb] ++ toBytesBE 8 ts ++ [1] ++
        toBytesBE 2 (22 + uid.length + name.length + content.length) ++ sid ++
        List.replicate 8 255 ++ [16]) (toBytesBE 8 ts)
      ([uid.length % 256] ++ uid ++ [name.length % 256] ++ name ++
        toBytesBE 2 content.length ++ content ++ [8] ++ sid ++ tail)
      31 8 (by simp [hbs]) (by simp [hsid]) (by simp)
    rw [h, beVal_toBytesBE,
      Nat.mod_eq_of_lt (lt_of_lt_of_le hts (by norm_num))]
  have r8 : getBytesBE bs 39 1 = Except.ok uid.length := by
    have h := getBytesBE_seg bs ([1, 4, tb] ++ toBytesBE 8 ts ++ [1] ++
        toBytesBE 2 (22 + uid.length + name.length + content.length) ++ sid ++
        List.replicate 8 255 ++ [16] ++ toBytesBE 8 ts) [uid.length % 256]
      (uid ++ [name.length % 256] ++ name ++ toBytesBE 2 content.length ++
        content ++ [8] ++ sid ++ tail)
      39 1 (by simp [hbs]) (by simp [hsid]) rfl
    rw [h, beVal_singleton,
      Nat.mod_eq_of_lt (lt_of_le_of_lt huid (by norm_num))]
  have s2 : sliceClamp bs 40 (40 + uid.length) = uid :=
    sliceClamp_seg bs ([1, 4, tb] ++ toBytesBE 8 ts ++ [1] ++
        toBytesBE 2 (22 + uid.length + name.length + content.length) ++ sid ++
        List.replicate 8 255 ++ [16] ++ toBytesBE 8 ts ++ [uid.length % 256]) uid
      ([name.length % 256] ++ name ++ toBytesBE 2 content.length ++ content ++
        [8] ++ sid ++ tail)
      40 (40 + uid.length) (by simp [hbs]) (by simp [hsid]) (by omega)
  have r9 : getBytesBE bs (40 + uid.length) 1 = Except.ok name.length := by
    have h := getBytesBE_seg bs ([1, 4, tb] ++ toBytesBE 8 ts ++ [1] ++
        toBytesBE 2 (22 + uid.length + name.length + content.length) ++ sid ++
        List.replicate 8 255 ++ [16] ++ toBytesBE 8 ts ++ [uid.length % 256] ++
        uid) [name.length % 256]
      (name ++ toBytesBE 2 content.length ++ content ++ [8] ++ sid ++ tail)
      (40 + uid.length) 1 (by simp [hbs]) (by simp [hsid]; omega) rfl
    rw [h, beVal_singleton,
      Nat.mod_eq_of_lt (lt_of_le_of_lt hname (by norm_num))]
  have s3 : sliceClamp bs (41 + uid.length) (41 + uid.length + name.length) = name :=
    sliceClamp_seg bs ([1, 4, tb] ++ toBytesBE 8 ts ++ [1] ++
        toBytesBE 2 (22 + uid.length + name.length + content.length) ++ sid ++
        List.replicate 8 255 ++ [16] ++ toBytesBE 8 ts ++ [uid.length % 256] ++
        uid ++ [name.length % 256]) name
      (toBytesBE 2 content.length ++ content ++ [8] ++ sid ++ tail)
      (41 + uid.length) (41 + uid.length + name.length)
      (by simp [hbs]) (by simp [hsid]; omega) (by omega)
  have r10 : getBytesBE bs (41 + uid.length + name.length) 2 =
      Except.ok content.length := by
    have h := getBytesBE_seg bs ([1, 4, tb] ++ toBytesBE 8 ts ++ [1] ++
        toBytesBE 2 (22 + uid.length + name.length + content.length) ++ sid ++
        List.replicate 8 255 ++ [16] ++ toBytesBE 8 ts ++ [uid.length % 256] ++
        uid ++ [name.length % 256] ++ name) (toBytesBE 2 content.length)
      (content ++ [8] ++ sid ++ tail)
      (41 + uid.length + name.length) 2
      (by simp [hbs]) (by simp [hsid]; omega) (by simp)
    rw [h, beVal_toBytesBE,
      Nat.mod_eq_of_lt (lt_of_le_of_lt hcontent (by norm_num))]
  have s4 : sliceClamp bs (43 + uid.length + name.length)
      (43 + uid.length + name.length + content.length) = content :=
    sliceClamp_seg bs ([1, 4, tb] ++ toBytesBE 8 ts ++ [1] ++
        toBytesBE 2 (22 + uid.length + name.length + content.length) ++ sid ++
        List.replicate 8 255 ++ [16] ++ toBytesBE 8 ts ++ [uid.length % 256] ++
        uid ++ [name.length % 256] ++ name ++ toBytesBE 2 content.length) content
      ([8] ++ sid ++ tail)
      (43 + uid.length + name.length) (43 + uid.length + name.length + content.length)
      (by simp [hbs]) (by simp [hsid]; omega) (by omega)
  have r11 : getBytesBE bs (43 + uid.length + name.length + content.length) 1 =
      Except.ok (beVal [8]) :=
    getBytesBE_seg bs ([1, 4, tb] ++ toBytesBE 8 ts ++ [1] ++
        toBytesBE 2 (22 + uid.length + name.length + content.length) ++ sid ++
        List.replicate 8 255 ++ [16] ++ toBytesBE 8 ts ++ [uid.length % 256] ++
        uid ++ [name.length % 256] ++ name ++ toBytesBE 2 content.length ++
        content) [8] (sid ++ tail)
      (43 + uid.length + name.length + content.length) 1
      (by simp [hbs]) (by simp [hsid]; omega) rfl
  simp only [parseBody, r0, r1, r2, r3, r4, s1, r6, r7, r8, s2, r9, s3, r10,
    s4, r11, except_bind_ok, beVal_singleton, except_pure_eq]
  norm_num

/-- Decoding an encoded announce packet recovers the name, the hex rendering
of the senderId, and the timestamp. -/
lemma parse_announce_packet (ts : Nat) (sid name : List Nat) (ttl : Nat)
    (hsid : sid.length = 8) (hname : name.length ≤ 65535) (hts : ts < 2 ^ 53) :
    parseReceivedPacket (generateAnnouncePacket ts sid name ttl) =
      some (ParsedPacket.announce name (hexOfBytes sid) ts) := by
  have hshape : generateAnnouncePacket ts sid name ttl =
      [1] ++ [1] ++ [ttl % 256] ++ toBytesBE 8 ts ++ [0] ++
        toBytesBE 2 name.length ++ sid ++ name ++ [0] := by
    rw [generateAnnouncePacket_eq ts sid name ttl hsid]
  have hb := parseBody_announce_shape _ sid name (ttl % 256) ts [0] hshape hsid
    hname hts
  simp [parseReceivedPacket, hb]

/-- Decoding an encoded message packet recovers the name, content, hex
senderId, timestamp and uid. -/
lemma parse_message_packet (ts : Nat) (uid sid name content : List Nat)
    (ttl : Nat) (hsid : sid.length = 8) (huid : uid.length ≤ 255)
    (hname : name.length ≤ 255) (hcontent : content.length ≤ 65535)
    (hts : ts < 2 ^ 53) :
    parseReceivedPacket (generateMessagePacket ts uid sid name content ttl) =
      some (ParsedPacket.message name content (hexOfBytes sid) ts uid) := by
  have hshape : generateMessagePacket ts uid sid name content ttl =
      [1] ++ [4] ++ [ttl % 256] ++ toBytesBE 8 ts ++ [1] ++
        toBytesBE 2 (22 + uid.length + name.length + content.length) ++ sid ++
        List.replicate 8 255 ++ [16] ++ toBytesBE 8 ts ++ [uid.length % 256] ++
        uid ++ [name.length % 256] ++ name ++ toBytesBE 2 content.length ++
        content ++ [8] ++ sid ++ [0] := by
    rw [generateMessagePacket_eq ts uid sid name content ttl hsid]
    simp [List.append_assoc]
  have hb := parseBody_message_shape _ uid sid name content (ttl % 256) ts [0]
    hshape hsid huid hname hcontent hts
  simp [parseReceivedPacket, hb]

/-- The senderId bytes sit at offsets 14-21 of every announce packet. -/
lemma announce_senderId_slice (ts : Nat) (sid name : List Nat) (ttl : Nat)
    (hsid : sid.length = 8) :
    sliceClamp (generateAnnouncePacket ts sid name ttl) 14 22 = sid := by
  refine sliceClamp_seg _ ([1, 1, ttl % 256] ++ toBytesBE 8 ts ++ [0] ++
    toBytesBE 2 name.length) sid (name ++ [0]) 14 22 ?_ (by simp) (by omega)
  rw [generateAnnouncePacket_eq ts sid name ttl hsid]
  simp [List.append_assoc]

/-- The senderId bytes sit at offsets 14-21 of every message packet. -/
lemma message_senderId_slice (ts : Nat) (uid sid name content : List Nat)
    (ttl : Nat) (hsid : sid.length = 8) :
    sliceClamp (generateMessagePacket ts uid sid name content ttl) 14 22 = sid := by
  refine sliceClamp_seg _ ([1, 4, ttl % 256] ++ toBytesBE 8 ts ++ [1] ++
    toBytesBE 2 (22 + uid.length + name.length + content.length)) sid
    (List.replicate 8 255 ++ [16] ++ toBytesBE 8 ts ++ [uid.length % 256] ++
      uid ++ [name.length % 256] ++ name ++ toBytesBE 2 content.length ++
      content ++ [8] ++ sid ++ [0]) 14 22 ?_ (by simp) (by omega)
  rw [generateMessagePacket_eq ts uid sid name content ttl hsid]
  simp [List.append_assoc]

lemma except_bind_ok_inv {α β : Type} {x : Except Unit α} {f : α → Except Unit β}
    {b : β} (h : (x >>= f) = Except.ok b) :
    ∃ a, x = Except.ok a ∧ f a = Except.ok b := by
  cases x with
  | error e => simp [Bind.bind, Except.bind] at h
  | ok a => exact ⟨a, rfl, h⟩

/-- Any successfully decoded buffer is at least 14 bytes long: both branches
perform a bounds-checked 2-byte read at offset 12 before returning. -/
lemma parse_some_le (bs : List Nat) (r : ParsedPacket)
    (h : parseReceivedPacket bs = some r) : 14 ≤ bs.length := by
  have hb : parseBody bs = Except.ok (some r) := by
    cases hpb : parseBody bs with
    | error e => simp [parseReceivedPacket, hpb] at h
    | ok v =>
      simp [parseReceivedPacket, hpb] at h
      rw [h]
  rw [parseBody] at hb
  obtain ⟨t1, h1, hb⟩ := except_bind_ok_inv hb
  obtain ⟨t2, h2, hb⟩ := except_bind_ok_inv hb
  by_cases hc1 : t1 = 1 ∧ t2 = 1
  · rw [if_pos hc1] at hb
    obtain ⟨v2, hv2, hb⟩ := except_bind_ok_inv hb
    obtain ⟨v3, hv3, hb⟩ := except_bind_ok_inv hb
    obtain ⟨v5, hv5, hb⟩ := except_bind_ok_inv hb
    have := getBytesBE_ok_le bs 12 2 v5 hv5
    omega
  · rw [if_neg hc1] at hb
    by_cases hc2 : t1 = 1 ∧ t2 = 4
    · rw [if_pos hc2] at hb
      obtain ⟨v2, hv2, hb⟩ := except_bind_ok_inv hb
      obtain ⟨v3, hv3, hb⟩ := except_bind_ok_inv hb
      obtain ⟨v5, hv5, hb⟩ := except_bind_ok_inv hb
      have := getBytesBE_ok_le bs 12 2 v5 hv5
      omega
    · rw [if_neg hc2] at hb
      exact absurd hb (by simp [except_pure_eq])

/-- Buffers shorter than 14 bytes always decode to null. -/
lemma parse_short_none (bs : List Nat) (h : bs.length < 14) :
    parseReceivedPacket bs = none := by
  cases hp : parseReceivedPacket bs with
  | none => rfl
  | some r =>
    have := parse_some_le bs r hp
    omega

/-- Bumping the failure counter of the accumulator commutes with running the
rest of the broadcast loop. -/
lemma broadcastGo_bumpF (c : BroadcastCtx) (s : List (Nat × Bool)) :
    ∀ (disc : List Nat) (acc : BroadcastResult),
    broadcastGo c disc { acc with failureLogs := acc.failureLogs + 1 } s =
      { broadcastGo c disc acc s with
        failureLogs := (broadcastGo c disc acc s).failureLogs + 1 } := by
  induction s with
  | nil => intro disc acc; rfl
  | cons p rest ih =>
    intro disc acc
    obtain ⟨id, ok⟩ := p
    by_cases hmem : id ∈ disc
    · simp only [broadcastGo, if_pos hmem]
      exact ih disc acc
    · cases ok with
      | true =>
        simp only [broadcastGo, if_neg hmem, if_pos rfl]
        have h := ih (id :: disc)
          { devicesFound := acc.devicesFound + 1
            messagesSent := acc.messagesSent + c.numMessages
            failureLogs := acc.failureLogs
            writes := acc.writes ++ [(id, devicePackets c)] }
        simpa using h
      | false =>
        simp only [broadcastGo, if_neg hmem]
        have h := ih disc
          { devicesFound := acc.devicesFound
            messagesSent := acc.messagesSent
            failureLogs := acc.failureLogs + 1
            writes := acc.writes }
        simpa using h

/-- Inserting a failing peer attempt into a broadcast run leaves every
counter and write unchanged except for one extra failure log entry. -/
lemma broadcastGo_insert_fail (c : BroadcastCtx) (s1 : List (Nat × Bool)) :
    ∀ (s2 : List (Nat × Bool)) (d : Nat) (disc : List Nat)
      (acc : BroadcastResult), d ∉ servicedIds disc s1 →
    broadcastGo c disc acc (s1 ++ (d, false) :: s2) =
      { broadcastGo c disc acc (s1 ++ s2) with
        failureLogs := (broadcastGo c disc acc (s1 ++ s2)).failureLogs + 1 } := by
  induction s1 with
  | nil =>
    intro s2 d disc acc hd
    simp only [servicedIds] at hd
    simp only [List.nil_append, broadcastGo, if_neg hd]
    exact broadcastGo_bumpF c s2 disc acc
  | cons p rest ih =>
    intro s2 d disc acc hd
    obtain ⟨id, ok⟩ := p
    by_cases hmem : id ∈ disc
    · have hd2 : d ∉ servicedIds disc rest := by
        simpa [servicedIds, hmem] using hd
      simp only [List.cons_append, broadcastGo, if_pos hmem]
      exact ih s2 d disc acc hd2
    · cases ok with
      | true =>
        have hd2 : d ∉ servicedIds (id :: disc) rest := by
          simpa [servicedIds, hmem] using hd
        simp only [List.cons_append, broadcastGo, if_neg hmem, if_pos rfl]
        exact ih s2 d (id :: disc) _ hd2
      | false =>
        have hd2 : d ∉ servicedIds disc rest := by
          simpa [servicedIds, hmem] using hd
        simp only [List.cons_append, broadcastGo, if_neg hmem]
        exact ih s2 d disc _ hd2

/-! Claim theorems. -/

/-- Claim C1: decoding the bytes produced by the message encoder yields a
message record with the original name, content and senderId (rendered in the
decoder's hex form), and decoding the announce encoder's bytes yields an
announce record with the original name and senderId, for all field values
within the field-width limits (name up to 255 bytes, content up to 65535
bytes, uid up to 255 bytes, 8-byte senderId). -/
theorem codec_roundtrip (ts : Nat) (uid sid name content : List Nat) (ttl : Nat)
    (hsid : sid.length = 8) (huid : uid.length ≤ 255) (hname : name.length ≤ 255)
    (hcontent : content.length ≤ 65535) (hts : ts < 2 ^ 53) :
    parseReceivedPacket (generateMessagePacket ts uid sid name content ttl) =
      some (ParsedPacket.message name content (hexOfBytes sid) ts uid) ∧
    parseReceivedPacket (generateAnnouncePacket ts sid name ttl) =
      some (ParsedPacket.announce name (hexOfBytes sid) ts) :=
  ⟨parse_message_packet ts uid sid name content ttl hsid huid hname hcontent hts,
   parse_announce_packet ts sid name ttl hsid (le_trans hname (by norm_num)) hts⟩

/-- Witness for C1 at concrete inputs. -/
theorem codec_roundtrip_witness :
    parseReceivedPacket (generateMessagePacket 5 [117] sid0 [65] [104, 105] 9) =
      some (ParsedPacket.message [65] [104, 105] (hexOfBytes sid0) 5 [117]) ∧
    parseReceivedPacket (generateAnnouncePacket 5 sid0 [65] 9) =
      some (ParsedPacket.announce [65] (hexOfBytes sid0) 5) :=
  codec_roundtrip 5 [117] sid0 [65] [104, 105] 9 (by decide) (by decide)
    (by decide) (by decide) (by norm_num)

set_option maxRecDepth 100000 in
/-- Claim C2 counterexample: a proper prefix of a valid announce packet (the
24-byte packet for name A cut to 22 bytes, losing the name byte and the pad)
is decoded as a successful announce record with an empty name - not as any
truncation error or null. -/
theorem truncated_prefix_accepted_cex :
    (annB.take 22).length < annB.length ∧
    parseReceivedPacket (annB.take 22) =
      some (ParsedPacket.announce [] (hexOfBytes sid0) 0) := by
  decide

set_option maxRecDepth 100000 in
/-- Claim C2 amended: decode never reads past the supplied buffer; its
DataView reads are bounds-checked and throw (yielding null), while its slice
reads clamp. A prefix that cuts a fixed-width field yields null (in
particular every buffer shorter than 14 bytes), but a prefix that only cuts
into length-prefixed variable byte regions is silently accepted with the
truncated bytes, as the concrete announce and message profiles show. -/
theorem truncation_behavior :
    (∀ bs : List Nat, bs.length < 14 → parseReceivedPacket bs = none) ∧
    (∀ n, n < 28 → 14 ≤ n → (parseReceivedPacket (annA.take n)).isSome = true) ∧
    (∀ n, n < 85 → parseReceivedPacket (msgM.take n) = none) ∧
    (∀ n, 85 ≤ n → n < 94 → parseReceivedPacket (msgM.take n) = parseReceivedPacket msgM) := by
  refine ⟨parse_short_none, ?_, ?_, ?_⟩
  · decide
  · decide
  · decide

/-- Witness for C2 amended at a concrete short buffer. -/
theorem truncation_behavior_witness :
    parseReceivedPacket [1, 1, 3] = none :=
  truncation_behavior.1 [1, 1, 3] (by decide)

/-- Claim C3: any buffer whose first two bytes are not one of the recognized
(version, type) pairs (0x01, 0x01) or (0x01, 0x04) decodes to the unknown
result null, reached through the normal return path (Except.ok none), not
through a thrown error. -/
theorem unknown_type_returns_null (bs : List Nat)
    (h1 : ¬(bs[0]? = some 1 ∧ bs[1]? = some 1))
    (h2 : ¬(bs[0]? = some 1 ∧ bs[1]? = some 4)) :
    parseReceivedPacket bs = none ∧
    (2 ≤ bs.length → parseBody bs = Except.ok none) := by
  rcases bs with _ | ⟨a, _ | ⟨b, t⟩⟩
  · exact ⟨by decide, by intro h; simp at h⟩
  · refine ⟨?_, ?_⟩
    · simp [parseReceivedPacket, parseBody, getBytesBE, Bind.bind, Except.bind]
    · intro h; simp at h
  · have r0 : getBytesBE (a :: b :: t) 0 1 = Except.ok (beVal [a]) :=
      getBytesBE_seg _ [] [a] (b :: t) 0 1 rfl rfl rfl
    have r1 : getBytesBE (a :: b :: t) 1 1 = Except.ok (beVal [b]) :=
      getBytesBE_seg _ [a] [b] t 1 1 rfl rfl rfl
    have h1x : ¬(a = 1 ∧ b = 1) := by
      intro hab
      exact h1 ⟨by simp [hab.1], by simp [hab.2]⟩
    have h2x : ¬(a = 1 ∧ b = 4) := by
      intro hab
      exact h2 ⟨by simp [hab.1], by simp [hab.2]⟩
    have hbody : parseBody (a :: b :: t) = Except.ok none := by
      simp only [parseBody, r0, r1, except_bind_ok, beVal_singleton,
        if_neg h1x, if_neg h2x, except_pure_eq]
    exact ⟨by simp [parseReceivedPacket, hbody], fun _ => hbody⟩

/-- Witness for C3 at a concrete foreign buffer. -/
theorem unknown_type_returns_null_witness :
    parseReceivedPacket [7, 7, 7] = none ∧
    (2 ≤ ([7, 7, 7] : List Nat).length → parseBody [7, 7, 7] = Except.ok none) :=
  unknown_type_returns_null [7, 7, 7] (by decide) (by decide)

set_option maxRecDepth 100000 in
/-- Claim C4 counterexample: a 300-byte name is not rejected. The message
encoder returns a full 391-byte buffer whose one-byte name-length field
holds 300 mod 256 = 44, and the announce encoder round-trips the 300-byte
name successfully through its two-byte length field; no LengthOverflow
failure exists anywhere in the encoders. -/
theorem no_length_overflow_cex :
    (generateMessagePacket 0 uid36 sid0 (List.replicate 300 65) [104, 105]).length = 391 ∧
    sliceClamp (generateMessagePacket 0 uid36 sid0 (List.replicate 300 65) [104, 105])
      76 77 = [44] ∧
    ¬(300 ≤ 255) ∧
    parseReceivedPacket (generateAnnouncePacket 0 sid0 (List.replicate 300 65) 3) =
      some (ParsedPacket.announce (List.replicate 300 65) (hexOfBytes sid0) 0) := by
  decide

/-- Claim C4 amended: the encoders perform no length validation and always
produce a buffer; an oversized name has its one-byte length field in the
message packet written modulo 256, while the announce packet stores the name
length in a two-byte field, so no LengthOverflow error is ever produced. -/
theorem encoders_never_fail (ts : Nat) (uid sid name content : List Nat)
    (ttl : Nat) (hsid : sid.length = 8) :
    (generateMessagePacket ts uid sid name content ttl).length =
      31 + (22 + uid.length + name.length + content.length) ∧
    sliceClamp (generateMessagePacket ts uid sid name content ttl)
      (40 + uid.length) (41 + uid.length) = [name.length % 256] ∧
    (generateAnnouncePacket ts sid name ttl).length = 23 + name.length ∧
    sliceClamp (generateAnnouncePacket ts sid name ttl) 12 14 =
      toBytesBE 2 name.length := by
  refine ⟨?_, ?_, ?_, ?_⟩
  · rw [generateMessagePacket_eq ts uid sid name content ttl hsid]
    simp only [List.length_append, List.length_cons, List.length_nil,
      List.length_replicate, toBytesBE_length, hsid]
    omega
  · refine sliceClamp_seg _ ([1, 4, ttl % 256] ++ toBytesBE 8 ts ++ [1] ++
      toBytesBE 2 (22 + uid.length + name.length + content.length) ++ sid ++
      List.replicate 8 255 ++ [16] ++ toBytesBE 8 ts ++ [uid.length % 256] ++
      uid) [name.length % 256]
      (name ++ toBytesBE 2 content.length ++ content ++ [8] ++ sid ++ [0])
      (40 + uid.length) (41 + uid.length) ?_ (by simp [hsid]; omega)
      (by simp only [List.length_singleton]; omega)
    rw [generateMessagePacket_eq ts uid sid name content ttl hsid]
    simp [List.append_assoc]
  · rw [generateAnnouncePacket_eq ts sid name ttl hsid]
    simp only [List.length_append, List.length_cons, List.length_nil,
      toBytesBE_length, hsid]
    omega
  · refine sliceClamp_seg _ ([1, 1, ttl % 256] ++ toBytesBE 8 ts ++ [0])
      (toBytesBE 2 name.length) (sid ++ name ++ [0]) 12 14 ?_ (by simp) (by simp)
    rw [generateAnnouncePacket_eq ts sid name ttl hsid]
    simp [List.append_assoc]

/-- Witness for C4 amended at concrete inputs. -/
theorem encoders_never_fail_witness :
    (generateMessagePacket 0 [117] sid0 [65, 66] [104] 3).length =
      31 + (22 + 1 + 2 + 1) ∧
    sliceClamp (generateMessagePacket 0 [117] sid0 [65, 66] [104] 3) 41 42 = [2] ∧
    (generateAnnouncePacket 0 sid0 [65, 66] 3).length = 25 ∧
    sliceClamp (generateAnnouncePacket 0 sid0 [65, 66] 3) 12 14 = toBytesBE 2 2 := by
  have h := encoders_never_fail 0 [117] sid0 [65, 66] [104] 3 (by decide)
  simpa using h

set_option maxRecDepth 100000 in
/-- Claim C5 counterexample: two consecutive sendMessages invocations each
draw a fresh senderId, so with a RandomSource whose first two draws differ
the senderId bytes on the wire (offsets 14-21 of every emitted packet)
differ between the two calls. -/
theorem senderId_fresh_per_send_cex :
    ((twoConsecutiveSends rngA 0 uidsA [65] [104] 1).1.map
      (fun p => sliceClamp p 14 22) = [List.replicate 8 1, List.replicate 8 1]) ∧
    ((twoConsecutiveSends rngA 0 uidsA [65] [104] 1).2.map
      (fun p => sliceClamp p 14 22) = [List.replicate 8 2, List.replicate 8 2]) ∧
    List.replicate 8 1 ≠ List.replicate 8 2 := by
  decide

/-- Claim C5 amended: the senderId is drawn afresh inside each sendMessages
invocation (not once per process); within a single invocation every emitted
packet (the announce and all messages) carries that call's senderId bytes at
offsets 14-21. -/
theorem senderId_constant_within_send (rand : List Nat) (ts : Nat)
    (uids : Nat → List Nat) (name msg : List Nat) (n : Nat)
    (hrand : rand.length = 8) :
    ∀ p ∈ sendMessages rand ts uids name msg n,
      sliceClamp p 14 22 = generateSenderId rand := by
  intro p hp
  simp only [sendMessages, List.mem_cons, List.mem_map] at hp
  rcases hp with h | ⟨i, _, h⟩
  · subst h
    exact announce_senderId_slice ts (generateSenderId rand) name 3 hrand
  · subst h
    exact message_senderId_slice ts (uids i) (generateSenderId rand) name msg 5 hrand

/-- Witness for C5 amended: the announce packet of a concrete call carries
that call's senderId. -/
theorem senderId_constant_within_send_witness :
    sliceClamp (generateAnnouncePacket 0 (generateSenderId (List.replicate 8 3)) [65])
      14 22 = generateSenderId (List.replicate 8 3) :=
  senderId_constant_within_send (List.replicate 8 3) 0 uidsA [65] [104] 1
    (by decide) _ (by simp [sendMessages])

set_option maxRecDepth 100000 in
/-- Claim C6 counterexample: the decoder reads the ttl byte but drops it, so
announce packets that differ only in ttl decode to identical records; no
field of the returned record holds the ttl. -/
theorem ttl_dropped_cex :
    parseReceivedPacket (generateAnnouncePacket 0 sid0 [65] 3) =
      parseReceivedPacket (generateAnnouncePacket 0 sid0 [65] 250) ∧
    (parseReceivedPacket (generateAnnouncePacket 0 sid0 [65] 3)).isSome = true ∧
    (3 : Nat) ≠ 250 := by
  decide

/-- Claim C6 amended: the decoded record does not contain the ttl; decoding
is invariant under any change of the encoded ttl, for announce and message
packets alike, and the announce round trip returns exactly the record with
type, senderName, senderId and timestamp. -/
theorem ttl_dropped (ts : Nat) (uid sid name content : List Nat) (t1 t2 : Nat)
    (hsid : sid.length = 8) (huid : uid.length ≤ 255) (hname : name.length ≤ 255)
    (hcontent : content.length ≤ 65535) (hts : ts < 2 ^ 53) :
    parseReceivedPacket (generateAnnouncePacket ts sid name t1) =
      parseReceivedPacket (generateAnnouncePacket ts sid name t2) ∧
    parseReceivedPacket (generateMessagePacket ts uid sid name content t1) =
      parseReceivedPacket (generateMessagePacket ts uid sid name content t2) ∧
    parseReceivedPacket (generateAnnouncePacket ts sid name t1) =
      some (ParsedPacket.announce name (hexOfBytes sid) ts) := by
  have hname65 : name.length ≤ 65535 := le_trans hname (by norm_num)
  refine ⟨?_, ?_, parse_announce_packet ts sid name t1 hsid hname65 hts⟩
  · rw [parse_announce_packet ts sid name t1 hsid hname65 hts,
      parse_announce_packet ts sid name t2 hsid hname65 hts]
  · rw [parse_message_packet ts uid sid name content t1 hsid huid hname hcontent hts,
      parse_message_packet ts uid sid name content t2 hsid huid hname hcontent hts]

/-- Witness for C6 amended at concrete inputs. -/
theorem ttl_dropped_witness :
    parseReceivedPacket (generateAnnouncePacket 7 sid0 [66] 3) =
      parseReceivedPacket (generateAnnouncePacket 7 sid0 [66] 9) ∧
    parseReceivedPacket (generateMessagePacket 7 [117] sid0 [66] [104] 3) =
      parseReceivedPacket (generateMessagePacket 7 [117] sid0 [66] [104] 9) ∧
    parseReceivedPacket (generateAnnouncePacket 7 sid0 [66] 3) =
      some (ParsedPacket.announce [66] (hexOfBytes sid0) 7) :=
  ttl_dropped 7 [117] sid0 [66] [104] 3 9 (by decide) (by decide) (by decide)
    (by decide) (by norm_num)

set_option maxRecDepth 100000 in
/-- Claim C7 counterexample: with the ttl argument omitted, the message
encoder writes 3 - not 5 - at offset 2 (the function signature defaults ttl
to 3 for both packet kinds; callers pass 5 explicitly for messages). -/
theorem message_default_ttl_cex :
    sliceClamp (generateMessagePacket 0 uid36 sid0 [66] [104]) 2 3 = [3] ∧
    (3 : Nat) ≠ 5 := by
  decide

/-- Claim C7 amended: when the ttl argument is omitted both encoders default
it to 3, and the byte at offset 2 of either produced buffer is 3. -/
theorem default_ttl_three (ts : Nat) (uid sid name content : List Nat)
    (hsid : sid.length = 8) :
    sliceClamp (generateAnnouncePacket ts sid name) 2 3 = [3] ∧
    sliceClamp (generateMessagePacket ts uid sid name content) 2 3 = [3] := by
  constructor
  · have h := sliceClamp_seg (generateAnnouncePacket ts sid name) [1, 1]
      [3 % 256] (toBytesBE 8 ts ++ [0] ++ toBytesBE 2 name.length ++ sid ++
        name ++ [0]) 2 3 ?_ rfl (by norm_num)
    · simpa using h
    · rw [generateAnnouncePacket_eq ts sid name 3 hsid]
      simp [List.append_assoc]
  · have h := sliceClamp_seg (generateMessagePacket ts uid sid name content)
      [1, 4] [3 % 256] (toBytesBE 8 ts ++ [1] ++
        toBytesBE 2 (22 + uid.length + name.length + content.length) ++ sid ++
        List.replicate 8 255 ++ [16] ++ toBytesBE 8 ts ++ [uid.length % 256] ++
        uid ++ [name.length % 256] ++ name ++ toBytesBE 2 content.length ++
        content ++ [8] ++ sid ++ [0]) 2 3 ?_ rfl (by norm_num)
    · simpa using h
    · rw [generateMessagePacket_eq ts uid sid name content 3 hsid]
      simp [List.append_assoc]

/-- Witness for C7 amended at concrete inputs. -/
theorem default_ttl_three_witness :
    sliceClamp (generateAnnouncePacket 0 sid0 [65]) 2 3 = [3] ∧
    sliceClamp (generateMessagePacket 0 [117] sid0 [65] [104]) 2 3 = [3] :=
  default_ttl_three 0 [117] sid0 [65] [104] (by decide)

set_option maxRecDepth 100000 in
/-- Claim C8: in the three-peer scenario where peer 2 fails to connect, the
run still sends to peers 1 and 3, reports devicesFound 2 with the matching
message count and records the one failure in the log; in general, inserting
a failing peer into any run leaves all counters and writes unchanged except
for one extra recorded failure, so a failure never aborts the run. -/
theorem broadcast_failure_isolation :
    ((broadcastToAll ctx0 [(1, true), (2, false), (3, true)]).devicesFound = 2 ∧
     (broadcastToAll ctx0 [(1, true), (2, false), (3, true)]).failureLogs = 1 ∧
     (broadcastToAll ctx0 [(1, true), (2, false), (3, true)]).messagesSent = 2 ∧
     (broadcastToAll ctx0 [(1, true), (2, false), (3, true)]).writes.map Prod.fst =
       [1, 3]) ∧
    (∀ (c : BroadcastCtx) (s1 s2 : List (Nat × Bool)) (d : Nat),
      d ∉ servicedIds [] s1 →
      broadcastToAll c (s1 ++ (d, false) :: s2) =
        { broadcastToAll c (s1 ++ s2) with
          failureLogs := (broadcastToAll c (s1 ++ s2)).failureLogs + 1 }) := by
  constructor
  · refine ⟨?_, ?_, ?_, ?_⟩ <;> decide
  · intro c s1 s2 d hd
    exact broadcastGo_insert_fail c s1 s2 d [] _ hd

/-- Witness for C8 at the concrete three-peer scenario. -/
theorem broadcast_failure_isolation_witness :
    broadcastToAll ctx0 ([(1, true)] ++ (2, false) :: [(3, true)]) =
      { broadcastToAll ctx0 ([(1, true)] ++ [(3, true)]) with
        failureLogs :=
          (broadcastToAll ctx0 ([(1, true)] ++ [(3, true)])).failureLogs + 1 } :=
  broadcast_failure_isolation.2 ctx0 [(1, true)] [(3, true)] 2 (by decide)

/-- Claim C9: the announce encoder allocates 23 + utf8Length(name) bytes but
writes only 22 + utf8Length(name) of them (14-byte header, 8-byte senderId,
name), leaving one inert trailing zero byte, and the decoder returns the
same record whether or not that trailing byte is present. -/
theorem announce_padding (ts : Nat) (sid name : List Nat) (ttl : Nat)
    (hsid : sid.length = 8) (hname : name.length ≤ 65535) (hts : ts < 2 ^ 53) :
    (generateAnnouncePacket ts sid name ttl).length = 23 + name.length ∧
    generateAnnouncePacket ts sid name ttl =
      ([1] ++ [1] ++ [ttl % 256] ++ toBytesBE 8 ts ++ [0] ++
        toBytesBE 2 name.length ++ sid ++ name) ++ [0] ∧
    ([1] ++ [1] ++ [ttl % 256] ++ toBytesBE 8 ts ++ [0] ++
      toBytesBE 2 name.length ++ sid ++ name).length = 22 + name.length ∧
    parseReceivedPacket ((generateAnnouncePacket ts sid name ttl).dropLast) =
      parseReceivedPacket (generateAnnouncePacket ts sid name ttl) := by
  have he := generateAnnouncePacket_eq ts sid name ttl hsid
  refine ⟨?_, he, ?_, ?_⟩
  · rw [he]
    simp only [List.length_append, List.length_cons, List.length_nil,
      toBytesBE_length, hsid]
    omega
  · simp only [List.length_append, List.length_cons, List.length_nil,
      toBytesBE_length, hsid]
  · have hd : (generateAnnouncePacket ts sid name ttl).dropLast =
        [1] ++ [1] ++ [ttl % 256] ++ toBytesBE 8 ts ++ [0] ++
          toBytesBE 2 name.length ++ sid ++ name := by
      rw [he, List.dropLast_concat]
    have h1 := parseBody_announce_shape
      ([1] ++ [1] ++ [ttl % 256] ++ toBytesBE 8 ts ++ [0] ++
        toBytesBE 2 name.length ++ sid ++ name) sid name (ttl % 256) ts []
      (by simp) hsid hname hts
    rw [hd, parse_announce_packet ts sid name ttl hsid hname hts]
    simp only [parseReceivedPacket, h1]

/-- Witness for C9 at concrete inputs. -/
theorem announce_padding_witness :
    (generateAnnouncePacket 5 sid0 [65, 66] 3).length = 25 ∧
    generateAnnouncePacket 5 sid0 [65, 66] 3 =
      ([1] ++ [1] ++ [3 % 256] ++ toBytesBE 8 5 ++ [0] ++
        toBytesBE 2 ([65, 66] : List Nat).length ++ sid0 ++ [65, 66]) ++ [0] ∧
    ([1] ++ [1] ++ [3 % 256] ++ toBytesBE 8 5 ++ [0] ++
      toBytesBE 2 ([65, 66] : List Nat).length ++ sid0 ++ [65, 66]).length = 24 ∧
    parseReceivedPacket ((generateAnnouncePacket 5 sid0 [65, 66] 3).dropLast) =
      parseReceivedPacket (generateAnnouncePacket 5 sid0 [65, 66] 3) := by
  have h := announce_padding 5 sid0 [65, 66] 3 (by decide) (by decide) (by norm_num)
  simpa using h

/-- Claim C10: decode is total. For every input buffer the try-block body
either returns normally, in which case parseReceivedPacket passes the result
through, or throws, in which case the catch converts it to null; no input
makes the decoder propagate an exception. -/
theorem decode_total (bs : List Nat) :
    (∃ r, parseBody bs = Except.ok r ∧ parseReceivedPacket bs = r) ∨
    (parseBody bs = Except.error () ∧ parseReceivedPacket bs = none) := by
  cases h : parseBody bs with
  | error e =>
    cases e
    exact Or.inr ⟨rfl, by simp [parseReceivedPacket, h]⟩
  | ok r =>
    exact Or.inl ⟨r, rfl, by simp [parseReceivedPacket, h]⟩
